import Mathlib

/-!
Shallow embedding of the `UltracubeDataProcessor` data-index layer of the
Ultracube Factoriopedia (the `data-processor.js` script), together with
theorems settling the claims of the specification about it.

JavaScript values are modelled with value semantics: machine state
(`this.data`, `this.items`, `this.recipes`, `this.craftingEntities`, the
three `Map` lookups, `this.iconMapping`) becomes an explicit `ProcState`
record; JS `Map`s and the icon-mapping JSON object become functions
`String → Option α` (`Map.set` overwrites, so last writer wins);
absent/undefined JSON fields become `Option`; the "plain array or
`{_array_items: [...]}` wrapper" dual form becomes the `JsArrayField`
inductive.
-/

namespace Ultracube

/-- A JSON field that the source normalizes with the dual-form rule:
either falsy/absent (`null`), a plain array (`arr`), a wrapper object
carrying the payload under `_array_items` (`wrapped`), or some other
non-array object without a truthy `_array_items` key (`objOther`). -/
inductive JsArrayField (α : Type) where
  | null : JsArrayField α
  | arr (xs : List α) : JsArrayField α
  | wrapped (xs : List α) : JsArrayField α
  | objOther : JsArrayField α
deriving DecidableEq, Repr

/-- An ingredient or result record `{name, amount}` of a recipe. -/
structure Ing where
  name : String
  amount : Option Nat
deriving DecidableEq, Repr

/-- A technology effect record; only `unlock-recipe` effects matter, and
those carry a `recipe` field naming the unlocked recipe. -/
structure Effect where
  type : String
  recipe : Option String
deriving DecidableEq, Repr

/-- A raw record of an item-like bucket of the dataset: `name` plus an
optional `cleaned_name` (further raw fields are spread through by the
source but never consulted by any query, so they are omitted here). -/
structure RawItem where
  name : String
  cleaned_name : Option String
deriving DecidableEq, Repr

/-- A raw recipe record of the `recipe` bucket of the dataset. -/
structure RawRecipe where
  name : String
  cleaned_name : Option String
  category : Option String
  ingredients : JsArrayField Ing
  results : JsArrayField Ing
deriving DecidableEq, Repr

/-- A raw crafting-entity record (`assembling-machine`, `furnace`,
`mining-drill` or `lab` bucket). -/
structure RawEntity where
  name : String
  cleaned_name : Option String
  crafting_categories : JsArrayField String
deriving DecidableEq, Repr

/-- A raw technology record of the `technology` bucket of the dataset. -/
structure RawTech where
  name : String
  effects : JsArrayField Effect
deriving DecidableEq, Repr

/-- The dataset document: a JSON object keyed by record-type name; a
`none` bucket models an absent key. -/
structure Dataset where
  item : Option (List RawItem) := none
  fluid : Option (List RawItem) := none
  science : Option (List RawItem) := none
  armor : Option (List RawItem) := none
  module : Option (List RawItem) := none
  capsule : Option (List RawItem) := none
  repairTool : Option (List RawItem) := none
  itemWithEntityData : Option (List RawItem) := none
  railPlanner : Option (List RawItem) := none
  recipe : Option (List RawRecipe) := none
  assemblingMachine : Option (List RawEntity) := none
  furnace : Option (List RawEntity) := none
  miningDrill : Option (List RawEntity) := none
  lab : Option (List RawEntity) := none
  technology : Option (List RawTech) := none
deriving DecidableEq, Repr

/-- Bucket access `this.data[type]` for the nine item-like bucket names. -/
def dataGetItems (d : Dataset) : String → Option (List RawItem)
  | "item" => d.item
  | "fluid" => d.fluid
  | "science" => d.science
  | "armor" => d.armor
  | "module" => d.module
  | "capsule" => d.capsule
  | "repair-tool" => d.repairTool
  | "item-with-entity-data" => d.itemWithEntityData
  | "rail-planner" => d.railPlanner
  | _ => none

/-- Bucket access `this.data[type]` for the four crafting-entity bucket names. -/
def dataGetEntities (d : Dataset) : String → Option (List RawEntity)
  | "assembling-machine" => d.assemblingMachine
  | "furnace" => d.furnace
  | "mining-drill" => d.miningDrill
  | "lab" => d.lab
  | _ => none

/-- The `itemTypes` list of `processData`. -/
def itemTypesList : List String :=
  ["item", "fluid", "science", "armor", "module", "capsule",
   "repair-tool", "item-with-entity-data", "rail-planner"]

/-- The `entityTypes` list of `processData`. -/
def entityTypesList : List String :=
  ["assembling-machine", "furnace", "mining-drill", "lab"]

/-- A flattened item as built by `processData`: raw fields plus
`displayName`, `id` and `type`. -/
structure Item where
  name : String
  cleaned_name : Option String
  displayName : String
  id : String
  type : String
deriving DecidableEq, Repr

/-- The resolved `craftingEntity` reference attached to a recipe. -/
structure EntityRef where
  name : String
  id : String
  type : String
deriving DecidableEq, Repr

/-- A processed recipe as built by `processData`. -/
structure Recipe where
  name : String
  cleaned_name : Option String
  category : Option String
  displayName : String
  id : String
  ingredients : List Ing
  results : List Ing
  craftingEntity : Option EntityRef
deriving DecidableEq, Repr

/-- A flattened crafting entity as built by `processData`. -/
structure CraftingEntity where
  name : String
  cleaned_name : Option String
  displayName : String
  id : String
  type : String
  categories : List String
deriving DecidableEq, Repr

/-- A JS `Map` keyed by strings (also used for the icon-mapping JSON
object): modelled by its `get` function; `set` overwrites. -/
def Lookup (α : Type) : Type := String → Option α

/-- JS `Map.set m k v` (overwrites any previous binding of `k`). -/
def mapSet {α : Type} (m : Lookup α) (k : String) (v : α) : Lookup α :=
  fun q => if q = k then some v else m q

/-- The mutable fields of the `UltracubeDataProcessor` instance. -/
structure ProcState where
  data : Option Dataset
  recipes : List Recipe
  items : List Item
  craftingEntities : List CraftingEntity
  recipeLookup : Lookup Recipe
  itemLookup : Lookup Item
  craftingLookup : Lookup CraftingEntity
  iconMapping : Lookup String

/-- Initial state established by the constructor. -/
def initState : ProcState where
  data := none
  recipes := []
  items := []
  craftingEntities := []
  recipeLookup := fun _ => none
  itemLookup := fun _ => none
  craftingLookup := fun _ => none
  iconMapping := fun _ => none

/-- JS `cleaned_name || name`: the fallback fires when `cleaned_name` is
absent or falsy (the empty string). -/
def jsStrOr (cleaned : Option String) (dflt : String) : String :=
  match cleaned with
  | some s => if s = "" then dflt else s
  | none => dflt

/-- Source `extractItems`: dual-form normalization of an
ingredients/results/effects field to a plain list. -/
def extractItems {α : Type} : JsArrayField α → List α
  | JsArrayField.null => []
  | JsArrayField.arr xs => xs
  | JsArrayField.wrapped xs => xs
  | JsArrayField.objOther => []

/-- Source `extractCategories`: textually identical logic to
`extractItems`, applied to `crafting_categories`. -/
def extractCategories {α : Type} : JsArrayField α → List α
  | JsArrayField.null => []
  | JsArrayField.arr xs => xs
  | JsArrayField.wrapped xs => xs
  | JsArrayField.objOther => []

/-- The static `categoryMappings` table of `findCraftingEntity`. -/
def categoryMappings : String → Option String
  | "crafting" => some "Assembling Machine"
  | "smelting" => some "Furnace"
  | "chemistry" => some "Chemical Plant"
  | "oil-processing" => some "Oil Refinery"
  | "rocket-building" => some "Rocket Silo"
  | _ => none

/-- A JS word character (`\w`): ASCII letter, digit or underscore. -/
def isWordChar (c : Char) : Bool :=
  c.isAlpha || c.isDigit || c = '_'

/-- JS `replace` of word-boundary word characters: uppercase every word
character at a word boundary; the boolean argument records whether the
previous character was a word character. -/
def upperAtBoundaries : Bool → List Char → List Char
  | _, [] => []
  | prev, c :: cs =>
      (if isWordChar c && !prev then c.toUpper else c) ::
        upperAtBoundaries (isWordChar c) cs

/-- The title-casing fallback: every dash of the category replaced by a
space, then every word character at a word boundary uppercased. -/
def titleCaseCategory (s : String) : String :=
  String.mk (upperAtBoundaries false
    (s.toList.map (fun c => if c = '-' then ' ' else c)))

/-- Source `findCraftingEntity(category)`: search the current crafting-entity
collection for the first entity whose categories contain the category,
else synthesize the static/title-cased fallback reference. JS `!category`
is true for an absent or empty-string category. -/
def findCraftingEntity (craftingEntities : List CraftingEntity)
    (category : Option String) : Option EntityRef :=
  match category with
  | none => none
  | some c =>
    if c = "" then none
    else
      match craftingEntities.find? (fun e => e.categories.contains c) with
      | some e => some { name := e.displayName, id := e.id, type := e.type }
      | none =>
          some { name := (categoryMappings c).getD (titleCaseCategory c),
                 id := c, type := "category" }

/-- Flattening of one raw item record with the type tag of its bucket. -/
def flattenItem (ty : String) (it : RawItem) : Item :=
  { name := it.name
    cleaned_name := it.cleaned_name
    displayName := jsStrOr it.cleaned_name it.name
    id := it.name
    type := ty }

/-- Source loop `typeItems.forEach(item => this.itemLookup.set(item.name, item))`. -/
def insertItems (m : Lookup Item) (l : List Item) : Lookup Item :=
  l.foldl (fun m it => mapSet m it.name it) m

/-- The item phase of `processData`: for each item-like bucket present,
append the flattened records to the item collection and index each one
by `name` (the lookup map is never cleared, so indexing starts from the
prior map). -/
def processItemsPhase (d : Dataset) (start : List Item × Lookup Item) :
    List Item × Lookup Item :=
  itemTypesList.foldl (fun acc ty =>
    match dataGetItems d ty with
    | none => acc
    | some bucket =>
        let typeItems := bucket.map (flattenItem ty)
        (acc.1 ++ typeItems, insertItems acc.2 typeItems)) start

/-- Processing of one raw recipe, resolving `craftingEntity` against the
crafting-entity collection as it stands when the recipe phase runs. -/
def processRecipe (craftingEntities : List CraftingEntity)
    (r : RawRecipe) : Recipe :=
  { name := r.name
    cleaned_name := r.cleaned_name
    category := r.category
    displayName := jsStrOr r.cleaned_name r.name
    id := r.name
    ingredients := extractItems r.ingredients
    results := extractItems r.results
    craftingEntity := findCraftingEntity craftingEntities r.category }

/-- Flattening of one raw crafting-entity record. -/
def flattenEntity (ty : String) (e : RawEntity) : CraftingEntity :=
  { name := e.name
    cleaned_name := e.cleaned_name
    displayName := jsStrOr e.cleaned_name e.name
    id := e.name
    type := ty
    categories := extractCategories e.crafting_categories }

/-- The crafting-entity phase of `processData`. -/
def processEntitiesPhase (d : Dataset)
    (start : List CraftingEntity × Lookup CraftingEntity) :
    List CraftingEntity × Lookup CraftingEntity :=
  entityTypesList.foldl (fun acc ty =>
    match dataGetEntities d ty with
    | none => acc
    | some bucket =>
        bucket.foldl (fun acc e =>
          let crafting := flattenEntity ty e
          (acc.1 ++ [crafting], mapSet acc.2 e.name crafting)) acc) start

/-- Source `processData()`. Phase order follows the source: items, then recipes
(whose `craftingEntity` resolution therefore sees the crafting-entity
collection from BEFORE this load — the empty list of the constructor on a
first load), then crafting entities. `this.items` and
`this.craftingEntities` are reset; `this.recipes` is reassigned only when
the dataset has a `recipe` bucket; none of the three lookup maps is ever
cleared. -/
def processData (d : Dataset) (st : ProcState) : ProcState :=
  let itemsPair := processItemsPhase d ([], st.itemLookup)
  let recipesPair :=
    match d.recipe with
    | none => (st.recipes, st.recipeLookup)
    | some rs =>
        let recipes := rs.map (processRecipe st.craftingEntities)
        (recipes,
         recipes.foldl (fun (m : Lookup Recipe) (r : Recipe) =>
           mapSet m r.name r) st.recipeLookup)
  let entitiesPair := processEntitiesPhase d ([], st.craftingLookup)
  { st with
      items := itemsPair.1
      itemLookup := itemsPair.2
      recipes := recipesPair.1
      recipeLookup := recipesPair.2
      craftingEntities := entitiesPair.1
      craftingLookup := entitiesPair.2 }

/-- Source `loadData()`. The two fetch/parse steps are modelled by their
outcomes: `none` is a transport or parse failure. The source assigns
`this.data` before the second fetch and `this.iconMapping` before
`processData`, so a failure of the second fetch leaves `this.data`
already updated. Returns the success flag and the resulting state. -/
def loadData (st : ProcState) (fetched : Option Dataset)
    (iconFetched : Option (Lookup String)) : Bool × ProcState :=
  match fetched with
  | none => (false, st)
  | some d =>
    let st1 := { st with data := some d }
    match iconFetched with
    | none => (false, st1)
    | some m =>
        let st2 := { st1 with iconMapping := m }
        (true, processData d st2)

/-- Source `getRecipesThatMake(itemName)`. -/
def getRecipesThatMake (st : ProcState) (itemName : String) : List Recipe :=
  st.recipes.filter (fun recipe =>
    recipe.results.any (fun result => result.name == itemName))

/-- Source `getRecipesThatUse(itemName)`. -/
def getRecipesThatUse (st : ProcState) (itemName : String) : List Recipe :=
  st.recipes.filter (fun recipe =>
    recipe.ingredients.any (fun ingredient => ingredient.name == itemName))

/-- Source `getRecipesCraftableBy(entityName)`. In the source the guard is
`!entity || !entity.categories`; every entity stored in the lookup has a
normalized `categories` array (truthy even when empty), so only the
absent-entity branch of the guard can fire. A recipe with an absent
`category` never satisfies `includes`. -/
def getRecipesCraftableBy (st : ProcState) (entityName : String) :
    List Recipe :=
  match st.craftingLookup entityName with
  | none => []
  | some entity =>
      st.recipes.filter (fun recipe =>
        match recipe.category with
        | some c => entity.categories.contains c
        | none => false)

/-- Source `getAllItems()`. -/
def getAllItems (st : ProcState) : List Item :=
  st.items

/-- Source `getAllRecipes()`. -/
def getAllRecipes (st : ProcState) : List Recipe :=
  st.recipes

/-- Source `getItem(itemName)`. -/
def getItem (st : ProcState) (itemName : String) : Option Item :=
  st.itemLookup itemName

/-- Source `getRecipe(recipeName)`. -/
def getRecipe (st : ProcState) (recipeName : String) : Option Recipe :=
  st.recipeLookup recipeName

/-- Source `getCraftingEntity(entityName)`. -/
def getCraftingEntity (st : ProcState) (entityName : String) :
    Option CraftingEntity :=
  st.craftingLookup entityName

/-- Whether the dataset object has the given key (`Object.keys`). -/
def dataHasKey (d : Dataset) (k : String) : Bool :=
  (dataGetItems d k).isSome || (dataGetEntities d k).isSome ||
    (k == "recipe" && d.recipe.isSome) ||
    (k == "technology" && d.technology.isSome)

/-- Insertion of a string into a sorted list (ascending). -/
def insertSorted (s : String) : List String → List String
  | [] => [s]
  | t :: ts => if s ≤ t then s :: t :: ts else t :: insertSorted s ts

/-- JS `Array.sort()` on strings (default UTF-16 comparison agrees with
lexicographic order on the ASCII type names involved). -/
def sortStrings (l : List String) : List String :=
  l.foldr insertSorted []

/-- Source `getItemTypes()`: a set seeded with `"item"`, extended with every
item-like key present on the dataset, then sorted. The source throws on
an unloaded index (callers gate all queries behind a successful load);
the unloaded branch is modelled as the empty list. -/
def getItemTypes (st : ProcState) : List String :=
  match st.data with
  | none => []
  | some d =>
      sortStrings ("item" ::
        (["fluid", "science", "armor", "module", "capsule", "repair-tool",
          "item-with-entity-data", "rail-planner"].filter
          (fun k => dataHasKey d k)))

/-- Whether a character list starts with the given character list. -/
def charsStartWith : List Char → List Char → Bool
  | [], _ => true
  | _ :: _, [] => false
  | a :: as, b :: bs => a == b && charsStartWith as bs

/-- Whether a character list contains the given character list as a
contiguous run. -/
def charsContain (sub : List Char) : List Char → Bool
  | [] => charsStartWith sub []
  | b :: bs => charsStartWith sub (b :: bs) || charsContain sub bs

/-- JS `String.prototype.includes`: substring containment. -/
def jsIncludes (s sub : String) : Bool :=
  charsContain sub.toList s.toList

/-- JS `String.prototype.toLowerCase` (ASCII-relevant part): lowercase
every character. -/
def jsToLowerCase (s : String) : String :=
  String.mk (s.toList.map Char.toLower)

/-- Source `searchItems(query, typeFilter)`: type filter first (when the tag is
a nonempty string), then case-insensitive substring match of the query
against `displayName` or `name`. -/
def searchItems (st : ProcState) (query typeFilter : String) : List Item :=
  let filteredItems := st.items
  let filteredItems :=
    if typeFilter ≠ "" then
      filteredItems.filter (fun item => item.type == typeFilter)
    else filteredItems
  if query ≠ "" then
    filteredItems.filter (fun item =>
      jsIncludes (jsToLowerCase item.displayName) (jsToLowerCase query) ||
        jsIncludes (jsToLowerCase item.name) (jsToLowerCase query))
  else filteredItems

/-- Source `getItemIcon(itemName)`: `this.iconMapping[itemName] || null` (an
empty-string filename is falsy and also yields null). -/
def getItemIcon (st : ProcState) (itemName : String) : Option String :=
  match st.iconMapping itemName with
  | some s => if s = "" then none else some s
  | none => none

/-- The predicate of the `find` in `getTechnologyThatUnlocks`: the
technology has a (truthy) effects field containing an `unlock-recipe`
effect whose recipe, resolved through the recipe index, has a result
named `itemName`. -/
def techUnlocks (st : ProcState) (itemName : String) (tech : RawTech) :
    Bool :=
  match tech.effects with
  | JsArrayField.null => false
  | eff =>
      (extractItems eff).any (fun effect =>
        effect.type == "unlock-recipe" &&
          (match effect.recipe with
           | none => false
           | some rid =>
             match st.recipeLookup rid with
             | some recipe =>
                 recipe.results.any (fun result => result.name == itemName)
             | none => false))

/-- Source `getTechnologyThatUnlocks(itemName)`: first matching technology in
declaration order, or absent when the dataset has no technology bucket
(or the index is unloaded, where the source would throw). -/
def getTechnologyThatUnlocks (st : ProcState) (itemName : String) :
    Option RawTech :=
  match st.data with
  | none => none
  | some d =>
    match d.technology with
    | none => none
    | some techs => techs.find? (techUnlocks st itemName)

/-! ## General helper lemmas -/

/-- Library bridge: `List.contains` agrees with membership (strings). -/
theorem contains_eq_true_iff {l : List String} {s : String} :
    l.contains s = true ↔ s ∈ l := by
  simp [List.contains, List.elem_iff]

/-- A successful `find?` splits the list at the first satisfying element. -/
theorem find?_eq_some_split {α : Type} (p : α → Bool) :
    ∀ (l : List α) (a : α), l.find? p = some a →
      p a = true ∧ ∃ pre post, l = pre ++ a :: post ∧ ∀ b ∈ pre, p b = false := by
  intro l
  induction l with
  | nil => intro a h; simp at h
  | cons x xs ih =>
    intro a h
    by_cases hx : p x = true
    · rw [List.find?_cons_of_pos _ hx] at h
      cases h
      exact ⟨hx, [], xs, rfl, by simp⟩
    · rw [List.find?_cons_of_neg _ hx] at h
      obtain ⟨hpa, pre, post, hsplit, hpre⟩ := ih a h
      refine ⟨hpa, x :: pre, post, by simp [hsplit], ?_⟩
      intro b hb
      rcases List.mem_cons.mp hb with hb | hb
      · subst hb; exact Bool.not_eq_true _ ▸ (by simpa using hx)
      · exact hpre b hb

/-! ## C7: dual-form normalization -/

/-- C7: the dual-form normalization of ingredients/results (and
categories) maps a plain array and the wrapper object carrying the same elements to identical normalized sequences, and
maps an input in neither recognized form (absent, or an object without
`_array_items`) to the empty sequence. -/
theorem dual_form_normalization (l : List Ing) (cl : List String) :
    extractItems (JsArrayField.arr l) = extractItems (JsArrayField.wrapped l) ∧
    extractItems (JsArrayField.null : JsArrayField Ing) = [] ∧
    extractItems (JsArrayField.objOther : JsArrayField Ing) = [] ∧
    extractCategories (JsArrayField.arr cl) =
      extractCategories (JsArrayField.wrapped cl) ∧
    extractCategories (JsArrayField.null : JsArrayField String) = [] ∧
    extractCategories (JsArrayField.objOther : JsArrayField String) = [] :=
  ⟨rfl, rfl, rfl, rfl, rfl, rfl⟩

/-! ## C3: recipes-that-make / recipes-that-use -/

/-- C3: a recipe is returned by `getRecipesThatMake x` iff it is one of
the recipes of the index and some result of it is named `x`; symmetrically
for `getRecipesThatUse` and ingredients; both outputs are sublists of
the recipe collection, so declaration order is preserved. -/
theorem recipes_make_use_membership (st : ProcState) (x : String) (r : Recipe) :
    (r ∈ getRecipesThatMake st x ↔
      r ∈ st.recipes ∧ ∃ res ∈ r.results, res.name = x) ∧
    (r ∈ getRecipesThatUse st x ↔
      r ∈ st.recipes ∧ ∃ ing ∈ r.ingredients, ing.name = x) ∧
    List.Sublist (getRecipesThatMake st x) st.recipes ∧
    List.Sublist (getRecipesThatUse st x) st.recipes := by
  refine ⟨?_, ?_, List.filter_sublist _, List.filter_sublist _⟩
  · simp [getRecipesThatMake, List.mem_filter, List.any_eq_true]
  · simp [getRecipesThatUse, List.mem_filter, List.any_eq_true]

/-! ## C4: recipes craftable by an entity -/

/-- C4: `getRecipesCraftableBy e` returns exactly the recipes whose
category is among the categories of the entity indexed under `e`, and
returns the empty list when no entity is indexed under `e` or the
indexed entity has no categories. -/
theorem recipes_craftable_by_spec (st : ProcState) (e : String) (r : Recipe) :
    (r ∈ getRecipesCraftableBy st e ↔
      ∃ ent, st.craftingLookup e = some ent ∧ r ∈ st.recipes ∧
        ∃ c, r.category = some c ∧ c ∈ ent.categories) ∧
    (st.craftingLookup e = none → getRecipesCraftableBy st e = []) ∧
    (∀ ent, st.craftingLookup e = some ent → ent.categories = [] →
      getRecipesCraftableBy st e = []) := by
  refine ⟨?_, ?_, ?_⟩
  · cases hl : st.craftingLookup e with
    | none => simp [getRecipesCraftableBy, hl]
    | some ent =>
      simp only [getRecipesCraftableBy, hl, List.mem_filter]
      constructor
      · rintro ⟨hr, hc⟩
        cases hcat : r.category with
        | none => rw [hcat] at hc; simp at hc
        | some c =>
          rw [hcat] at hc
          exact ⟨ent, rfl, hr, c, rfl, contains_eq_true_iff.mp hc⟩
      · rintro ⟨ent', hent', hr, c, hcat, hc⟩
        cases hent'
        exact ⟨hr, by rw [hcat]; exact contains_eq_true_iff.mpr hc⟩
  · intro hl; simp [getRecipesCraftableBy, hl]
  · intro ent hl hcats
    simp only [getRecipesCraftableBy, hl]
    refine List.filter_eq_nil_iff.mpr ?_
    intro a _
    cases hcat : a.category with
    | none => simp
    | some c => simp [hcats]

/-- Witness for C4 at a concrete index: an absent entity id yields the
empty recipe list. -/
theorem recipes_craftable_by_spec_witness :
    getRecipesCraftableBy initState "missing" = [] :=
  (recipes_craftable_by_spec initState "missing"
    { name := "", cleaned_name := none, category := none, displayName := "",
      id := "", ingredients := [], results := [],
      craftingEntity := none }).2.1 rfl

/-! ## C2: failed load -/

/-- C2 counterexample dataset: one item bucket. -/
def dC2 : Dataset := { item := some [{ name := "y", cleaned_name := none }] }

/-- C2 counterexample: when the dataset fetch succeeds but the
icon-mapping fetch fails, `loadData` returns failure, yet the `data`
field has already been overwritten — the index is NOT left in the
unloaded state it had before the call. -/
theorem failed_load_mutates_data :
    (loadData initState (some dC2) none).1 = false ∧
    (loadData initState (some dC2) none).2.data = some dC2 ∧
    initState.data = none ∧
    some dC2 ≠ (none : Option Dataset) := by
  refine ⟨rfl, rfl, rfl, by simp⟩

/-- C2 amended: a failure of the first fetch/parse leaves the whole
state unchanged; a failure of the second (icon-mapping) fetch/parse
returns failure with the `data` field updated to the parsed dataset and
every other field (items, recipes, entities, the three lookups, the icon
mapping) unchanged. -/
theorem failed_load_amended (st : ProcState) (d : Dataset)
    (iconFetched : Option (Lookup String)) :
    loadData st none iconFetched = (false, st) ∧
    loadData st (some d) none = (false, { st with data := some d }) :=
  ⟨rfl, rfl⟩

/-! ## C10: queries are pure -/

/-- A query invocation of the data processor, with its arguments. -/
inductive Query where
  | qGetItem (id : String)
  | qGetRecipe (id : String)
  | qGetCraftingEntity (id : String)
  | qGetRecipesThatMake (id : String)
  | qGetRecipesThatUse (id : String)
  | qGetRecipesCraftableBy (id : String)
  | qGetTechnologyThatUnlocks (id : String)
  | qGetItemTypes
  | qSearchItems (query typeFilter : String)
  | qGetItemIcon (id : String)
deriving DecidableEq

/-- The result of a query invocation. -/
inductive QueryResult where
  | itemRes (r : Option Item)
  | recipeRes (r : Option Recipe)
  | entityRes (r : Option CraftingEntity)
  | recipesRes (r : List Recipe)
  | techRes (r : Option RawTech)
  | typesRes (r : List String)
  | itemsRes (r : List Item)
  | iconRes (r : Option String)

/-- State-passing execution of one query method: each branch returns the
state the method leaves behind together with its result. No statement of
any of the ten method bodies assigns to an instance field, so the
translation of each body carries the incoming state through unchanged. -/
def runQuery (st : ProcState) : Query → ProcState × QueryResult
  | Query.qGetItem id => (st, QueryResult.itemRes (getItem st id))
  | Query.qGetRecipe id => (st, QueryResult.recipeRes (getRecipe st id))
  | Query.qGetCraftingEntity id =>
      (st, QueryResult.entityRes (getCraftingEntity st id))
  | Query.qGetRecipesThatMake id =>
      (st, QueryResult.recipesRes (getRecipesThatMake st id))
  | Query.qGetRecipesThatUse id =>
      (st, QueryResult.recipesRes (getRecipesThatUse st id))
  | Query.qGetRecipesCraftableBy id =>
      (st, QueryResult.recipesRes (getRecipesCraftableBy st id))
  | Query.qGetTechnologyThatUnlocks id =>
      (st, QueryResult.techRes (getTechnologyThatUnlocks st id))
  | Query.qGetItemTypes => (st, QueryResult.typesRes (getItemTypes st))
  | Query.qSearchItems query typeFilter =>
      (st, QueryResult.itemsRes (searchItems st query typeFilter))
  | Query.qGetItemIcon id => (st, QueryResult.iconRes (getItemIcon st id))

/-- C10: every query operation leaves the entire index state (items,
recipes, crafting entities, the three lookup maps, the icon mapping and
the raw data) unchanged: the state after running any query equals the
state before. -/
theorem queries_leave_state_unchanged (q : Query) (st : ProcState) :
    (runQuery st q).1 = st := by
  cases q <;> rfl

/-! ## C1: craftingEntity resolution order -/

/-- C1 failing input, entity part: an assembling machine able to handle
the `crafting` category. -/
def entC1 : RawEntity :=
  { name := "assembler", cleaned_name := none,
    crafting_categories := JsArrayField.arr ["crafting"] }

/-- C1 failing input, recipe part: a recipe of category `crafting`. -/
def recC1 : RawRecipe :=
  { name := "r", cleaned_name := none, category := some "crafting",
    ingredients := JsArrayField.null,
    results := JsArrayField.arr [{ name := "w", amount := some 1 }] }

/-- C1 failing input: a dataset declaring both. -/
def dC1 : Dataset :=
  { recipe := some [recC1], assemblingMachine := some [entC1] }

/-- The state after a fresh successful load of the C1 dataset. -/
def stC1 : ProcState :=
  (loadData initState (some dC1) (some (fun _ => none))).2

/-- C1: the code processes recipes before it builds the crafting-entity
collection, so on a fresh load the search in `findCraftingEntity` runs
against the empty collection from the constructor and never finds the matching
entity: here the dataset declares an assembling machine whose categories
contain the category `crafting` of the recipe (and the loaded index does hold
that entity), yet the `craftingEntity` of the recipe is resolved to the
synthetic `category`-kind fallback instead of to the entity. -/
theorem crafting_entity_resolution_ignores_dataset_entities :
    extractCategories entC1.crafting_categories = ["crafting"] ∧
    (stC1.recipes.map Recipe.craftingEntity) =
      [some { name := "Assembling Machine", id := "crafting",
              type := "category" }] ∧
    (getCraftingEntity stC1 "assembler").map CraftingEntity.categories =
      some ["crafting"] := by
  refine ⟨rfl, rfl, rfl⟩

/-! ## C8: item search -/

/-- Membership in `searchItems` characterized against the stored raw
`name` (the field the source matches, alongside `displayName`). -/
theorem searchItems_mem (st : ProcState) (q t : String) (it : Item) :
    it ∈ searchItems st q t ↔
      it ∈ st.items ∧ (t ≠ "" → it.type = t) ∧
        (q ≠ "" →
          (jsIncludes (jsToLowerCase it.displayName) (jsToLowerCase q) = true ∨
           jsIncludes (jsToLowerCase it.name) (jsToLowerCase q) = true)) := by
  by_cases ht : t = "" <;> by_cases hq : q = ""
  all_goals simp [searchItems, ht, hq, List.mem_filter, and_assoc]
  all_goals tauto

/-- C8: `searchItems "" ""` returns the item collection itself; and for
any query and type tag, an item is returned exactly when it is in the
collection, its type equals the tag (when the tag is nonempty), and its
displayName or id contains the query as a case-insensitive substring
(when the query is nonempty) — case-insensitivity being lowercasing of
both sides. The hypothesis that the `id` of every stored item equals its raw
`name` holds for every item the load phase produces (the source matches
against `name`; the two coincide). -/
theorem search_items_spec (st : ProcState) (q t : String) (it : Item)
    (h : ∀ x ∈ st.items, x.id = x.name) :
    searchItems st "" "" = st.items ∧
    (it ∈ searchItems st q t ↔
      it ∈ st.items ∧ (t ≠ "" → it.type = t) ∧
        (q ≠ "" →
          (jsIncludes (jsToLowerCase it.displayName) (jsToLowerCase q) = true ∨
           jsIncludes (jsToLowerCase it.id) (jsToLowerCase q) = true))) := by
  refine ⟨rfl, ?_⟩
  rw [searchItems_mem]
  constructor
  · rintro ⟨hmem, hty, hmatch⟩
    refine ⟨hmem, hty, fun hq0 => ?_⟩
    have hm := hmatch hq0
    rwa [← h it hmem] at hm
  · rintro ⟨hmem, hty, hmatch⟩
    refine ⟨hmem, hty, fun hq0 => ?_⟩
    have hm := hmatch hq0
    rwa [h it hmem] at hm

/-- A concrete loaded-index state for the C8 witness. -/
def stC8 : ProcState :=
  { initState with
      items :=
        [{ name := "cube-x", cleaned_name := some "Cube X",
           displayName := "Cube X", id := "cube-x", type := "fluid" },
         { name := "gear", cleaned_name := none, displayName := "gear",
           id := "gear", type := "item" }] }

/-- Witness for C8: applying the theorem at a concrete index shows the
empty search returns the whole collection and that a fluid-typed item
matching `CU` case-insensitively is returned by `searchItems "CU" "fluid"`. -/
theorem search_items_spec_witness :
    searchItems stC8 "" "" = stC8.items ∧
    ({ name := "cube-x", cleaned_name := some "Cube X",
       displayName := "Cube X", id := "cube-x", type := "fluid" } : Item) ∈
      searchItems stC8 "CU" "fluid" := by
  have hids : ∀ x ∈ stC8.items, x.id = x.name := by decide
  have h := search_items_spec stC8 "CU" "fluid"
    { name := "cube-x", cleaned_name := some "Cube X",
      displayName := "Cube X", id := "cube-x", type := "fluid" } hids
  exact ⟨h.1, (h.2).mpr (by decide)⟩

/-! ## Item-phase characterization (used by C6 and C9) -/

/-- Declaration-order flattening of the item-like buckets of a dataset:
the concatenation, in bucket order, of the records of each present
bucket, flattened with the type tag of that bucket. -/
def flatItemsOver (d : Dataset) (tys : List String) : List Item :=
  tys.flatMap (fun ty => ((dataGetItems d ty).getD []).map (flattenItem ty))

/-- Inserting a concatenation inserts the parts in order. -/
theorem insertItems_append (m : Lookup Item) (l1 l2 : List Item) :
    insertItems m (l1 ++ l2) = insertItems (insertItems m l1) l2 := by
  simp [insertItems, List.foldl_append]

/-- The item-phase fold equals appending the flattened buckets and
inserting them all, for any starting accumulator. -/
theorem itemsFold_eq (d : Dataset) :
    ∀ (tys : List String) (itemsAcc : List Item) (m : Lookup Item),
      tys.foldl (fun acc ty =>
        match dataGetItems d ty with
        | none => acc
        | some bucket =>
            let typeItems := bucket.map (flattenItem ty)
            (acc.1 ++ typeItems, insertItems acc.2 typeItems)) (itemsAcc, m) =
      (itemsAcc ++ flatItemsOver d tys,
       insertItems m (flatItemsOver d tys)) := by
  intro tys
  induction tys with
  | nil => intro itemsAcc m; simp [flatItemsOver, insertItems]
  | cons ty tys ih =>
    intro itemsAcc m
    simp only [List.foldl_cons]
    cases hbucket : dataGetItems d ty with
    | none =>
      rw [ih]
      simp [flatItemsOver, hbucket]
    | some bucket =>
      simp only []
      rw [ih]
      simp [flatItemsOver, hbucket, insertItems_append, List.append_assoc]

/-- Closed form of `processItemsPhase`. -/
theorem processItemsPhase_eq (d : Dataset) (itemsAcc : List Item)
    (m : Lookup Item) :
    processItemsPhase d (itemsAcc, m) =
      (itemsAcc ++ flatItemsOver d itemTypesList,
       insertItems m (flatItemsOver d itemTypesList)) :=
  itemsFold_eq d itemTypesList itemsAcc m

/-- The value an insertion run leaves under a key: the last inserted
item with that name, or the prior binding. -/
theorem insertItems_apply :
    ∀ (l : List Item) (m : Lookup Item) (k : String),
      insertItems m l k =
        match l.reverse.find? (fun it => it.name == k) with
        | some v => some v
        | none => m k := by
  intro l
  induction l with
  | nil => intro m k; simp [insertItems]
  | cons it l ih =>
    intro m k
    have hstep : insertItems m (it :: l) k =
        insertItems (mapSet m it.name it) l k := by
      simp [insertItems]
    rw [hstep, ih (mapSet m it.name it) k]
    simp only [List.reverse_cons]
    rw [List.find?_append]
    cases hf : l.reverse.find? (fun x => x.name == k) with
    | some v => simp
    | none =>
      by_cases hk : it.name = k
      · have hbeq : (it.name == k) = true := by simp [hk]
        simp [List.find?, hbeq, mapSet, hk]
      · have hbeq : (it.name == k) = false := by simp [hk]
        have hk2 : ¬ k = it.name := fun h => hk h.symm
        simp [List.find?, hbeq, mapSet, hk2]

/-- Membership in the flattened item collection. -/
theorem mem_flatItemsOver (d : Dataset) (tys : List String) (x : Item) :
    x ∈ flatItemsOver d tys ↔
      ∃ ty ∈ tys, ∃ bucket, dataGetItems d ty = some bucket ∧
        ∃ raw ∈ bucket, x = flattenItem ty raw := by
  simp only [flatItemsOver, List.mem_flatMap, List.mem_map]
  constructor
  · rintro ⟨ty, hty, raw, hraw, hx⟩
    cases hbucket : dataGetItems d ty with
    | none => rw [hbucket] at hraw; simp at hraw
    | some bucket =>
      rw [hbucket] at hraw
      exact ⟨ty, hty, bucket, hbucket, raw, hraw, hx.symm⟩
  · rintro ⟨ty, hty, bucket, hbucket, raw, hraw, hx⟩
    exact ⟨ty, hty, raw, by rw [hbucket]; exact hraw, hx.symm⟩

/-- Every record of the flattened item collection carries the derived
fields the flattening assigns: `id` equals the raw `name`, and
`displayName` is `cleaned_name` when present and nonempty, else the raw
`name`. -/
theorem flatItemsOver_fields (d : Dataset) (tys : List String) (x : Item)
    (hx : x ∈ flatItemsOver d tys) :
    x.id = x.name ∧ x.displayName = jsStrOr x.cleaned_name x.name := by
  obtain ⟨ty, -, bucket, -, raw, -, hx⟩ := (mem_flatItemsOver d tys x).mp hx
  subst hx
  exact ⟨rfl, rfl⟩

/-- Shared closed form of a fresh successful load: the item collection
is the flattened concatenation of the buckets, and the item lookup at
any key holds the last flattened record with that name. -/
theorem loadData_fresh_items_and_lookup (d : Dataset) (icons : Lookup String) :
    (loadData initState (some d) (some icons)).2.items =
      flatItemsOver d itemTypesList ∧
    ∀ k, getItem (loadData initState (some d) (some icons)).2 k =
      (flatItemsOver d itemTypesList).reverse.find?
        (fun it => it.name == k) := by
  have hphase :
      processItemsPhase d ([], initState.itemLookup) =
        ([] ++ flatItemsOver d itemTypesList,
         insertItems initState.itemLookup (flatItemsOver d itemTypesList)) :=
    processItemsPhase_eq d [] initState.itemLookup
  have hitems :
      (loadData initState (some d) (some icons)).2.items =
        flatItemsOver d itemTypesList := by
    show (processData d _).items = _
    unfold processData
    rw [hphase]
    simp
  refine ⟨hitems, ?_⟩
  intro k
  show (loadData initState (some d) (some icons)).2.itemLookup k = _
  have hlookup :
      (loadData initState (some d) (some icons)).2.itemLookup =
        insertItems initState.itemLookup (flatItemsOver d itemTypesList) := by
    show (processData d _).itemLookup = _
    unfold processData
    rw [hphase]
  rw [hlookup, insertItems_apply]
  cases (flatItemsOver d itemTypesList).reverse.find?
      (fun it => it.name == k) with
  | none => rfl
  | some v => rfl

/-! ## C9: id uniqueness in the merged collection -/

/-- C9 counterexample dataset: the same raw name in two buckets. -/
def dC9 : Dataset :=
  { item := some [{ name := "x", cleaned_name := none }],
    fluid := some [{ name := "x", cleaned_name := none }] }

/-- The state after a fresh successful load of the C9 dataset. -/
def stC9 : ProcState :=
  (loadData initState (some dC9) (some (fun _ => none))).2

/-- C9 counterexample: after a successful load of a dataset in which the
same raw name appears in two item-type buckets, the collection returned
by `getAllItems` (and hence by the unfiltered `searchItems`) contains
TWO records with the same id — the merged flat collection does not
dedupe by id; only the lookup map does. -/
theorem items_id_unique_counterexample :
    (getAllItems stC9).map Item.id = ["x", "x"] ∧
    ¬ ((getAllItems stC9).map Item.id).Nodup ∧
    searchItems stC9 "" "" = getAllItems stC9 := by
  refine ⟨rfl, by decide, rfl⟩

/-- C9 amended: after a fresh successful load, the id-keyed lookup map
holds exactly one record per id with the last bucket written winning —
`getItem k` returns the LAST flattened record named `k` (absent when
none) — while the flat collection returned by `getAllItems` (and by the
unfiltered `searchItems`) is the full concatenation of the flattened
buckets and therefore may contain several records sharing an id. -/
theorem item_index_last_writer_wins (d : Dataset) (icons : Lookup String) :
    getAllItems (loadData initState (some d) (some icons)).2 =
      flatItemsOver d itemTypesList ∧
    searchItems (loadData initState (some d) (some icons)).2 "" "" =
      flatItemsOver d itemTypesList ∧
    ∀ k, getItem (loadData initState (some d) (some icons)).2 k =
      (flatItemsOver d itemTypesList).reverse.find?
        (fun it => it.name == k) := by
  obtain ⟨hitems, hlookup⟩ := loadData_fresh_items_and_lookup d icons
  exact ⟨hitems, by simp [searchItems, getAllItems, hitems], hlookup⟩

/-! ## C6: displayName of a looked-up item -/

/-- C6 counterexample dataset: the same raw name in two buckets with
different cleaned names. -/
def dC6 : Dataset :=
  { item := some [{ name := "x", cleaned_name := some "First" }],
    fluid := some [{ name := "x", cleaned_name := some "Second" }] }

/-- The state after a fresh successful load of the C6 dataset. -/
def stC6 : ProcState :=
  (loadData initState (some dC6) (some (fun _ => none))).2

/-- C6 counterexample: the claim quantifies over EVERY record of the
item-like buckets, but when two buckets share a raw name the lookup
keeps only the last-written record, so for the earlier record the
looked-up displayName is NOT its `cleaned_name`: here the `item`-bucket
record has `cleaned_name = "First"`, yet `getItem "x"` yields
displayName `"Second"`. -/
theorem get_item_display_name_counterexample :
    ({ name := "x", cleaned_name := some "First" } : RawItem) ∈
      dC6.item.getD [] ∧
    (getItem stC6 "x").map Item.displayName = some "Second" ∧
    (some "Second" : Option String) ≠ some "First" := by
  refine ⟨by decide, rfl, by decide⟩

/-- C6 amended: for every record `i` of an item-like bucket of a freshly
loaded dataset, `getItem i.name` succeeds and returns a flattened record
`r` named `i.name` whose displayName equals the own `cleaned_name` of
`r` when that is present and nonempty and the raw name of `r` otherwise (the
empty-string `cleaned_name` falls back to the raw id); `r` is the
flattening of `i` itself unless a later bucket record shares the name,
in which case the last-written record wins. -/
theorem get_item_display_name_amended (d : Dataset) (icons : Lookup String)
    (ty : String) (bucket : List RawItem) (i : RawItem)
    (hty : ty ∈ itemTypesList) (hb : dataGetItems d ty = some bucket)
    (hi : i ∈ bucket) :
    ∃ r : Item,
      getItem (loadData initState (some d) (some icons)).2 i.name = some r ∧
      r.name = i.name ∧ r.id = i.name ∧
      (∀ s, r.cleaned_name = some s → s ≠ "" → r.displayName = s) ∧
      ((r.cleaned_name = none ∨ r.cleaned_name = some "") →
        r.displayName = r.name) := by
  have hmem : flattenItem ty i ∈ flatItemsOver d itemTypesList :=
    (mem_flatItemsOver d itemTypesList _).mpr
      ⟨ty, hty, bucket, hb, i, hi, rfl⟩
  have hget := (loadData_fresh_items_and_lookup d icons).2 i.name
  cases hfind : (flatItemsOver d itemTypesList).reverse.find?
      (fun it => it.name == i.name) with
  | none =>
    exfalso
    have hall := List.find?_eq_none.mp hfind (flattenItem ty i)
      (List.mem_reverse.mpr hmem)
    simp [flattenItem] at hall
  | some r =>
    have hpred := List.find?_some hfind
    have hrmem : r ∈ flatItemsOver d itemTypesList :=
      List.mem_reverse.mp (List.mem_of_find?_eq_some hfind)
    have hname : r.name = i.name := by simpa using hpred
    obtain ⟨hid, hdisp⟩ := flatItemsOver_fields d itemTypesList r hrmem
    refine ⟨r, by rw [hget, hfind], hname, hid.trans hname, ?_, ?_⟩
    · intro s hs hne
      rw [hdisp, hs]
      simp [jsStrOr, hne]
    · intro hcase
      rcases hcase with hnone | hempty
      · rw [hdisp, hnone]; rfl
      · rw [hdisp, hempty]; simp [jsStrOr]

/-- Witness for C6 (amended) at the concrete C6 dataset: the looked-up
record for the fluid-bucket raw record named `x` exists and satisfies
the displayName fallback discipline. -/
theorem get_item_display_name_amended_witness :
    ∃ r : Item,
      getItem stC6 "x" = some r ∧
      r.name = "x" ∧ r.id = "x" ∧
      (∀ s, r.cleaned_name = some s → s ≠ "" → r.displayName = s) ∧
      ((r.cleaned_name = none ∨ r.cleaned_name = some "") →
        r.displayName = r.name) :=
  get_item_display_name_amended dC6 (fun _ => none) "fluid"
    [{ name := "x", cleaned_name := some "Second" }]
    { name := "x", cleaned_name := some "Second" }
    (by decide) rfl (by decide)

/-! ## C5: technology that unlocks an item -/

/-- Specification-side reading of "technology `t` unlocks item `x`": `t`
has an `unlock-recipe` effect whose target recipe, resolved through the
recipe index, has some result named `x`. -/
def UnlocksItem (st : ProcState) (x : String) (t : RawTech) : Prop :=
  ∃ e ∈ extractItems t.effects, e.type = "unlock-recipe" ∧
    ∃ rid, e.recipe = some rid ∧ ∃ rcp, getRecipe st rid = some rcp ∧
      ∃ res ∈ rcp.results, res.name = x

/-- The inner effect test of `getTechnologyThatUnlocks`, unfolded. -/
theorem techUnlocks_effect_iff (st : ProcState) (x : String) (e : Effect) :
    ((e.type == "unlock-recipe") &&
      (match e.recipe with
       | none => false
       | some rid =>
         match st.recipeLookup rid with
         | some recipe =>
             recipe.results.any (fun result => result.name == x)
         | none => false)) = true ↔
      (e.type = "unlock-recipe" ∧ ∃ rid, e.recipe = some rid ∧
        ∃ rcp, getRecipe st rid = some rcp ∧
          ∃ res ∈ rcp.results, res.name = x) := by
  cases hr : e.recipe with
  | none => simp [hr]
  | some rid =>
    cases hl : st.recipeLookup rid with
    | none => simp [hr, getRecipe, hl]
    | some rcp => simp [hr, getRecipe, hl, List.any_eq_true]

/-- The boolean `find` predicate of the source agrees with the
specification-side unlock relation. -/
theorem techUnlocks_iff (st : ProcState) (x : String) (t : RawTech) :
    techUnlocks st x t = true ↔ UnlocksItem st x t := by
  cases heff : t.effects with
  | null => simp [techUnlocks, UnlocksItem, heff, extractItems]
  | arr xs =>
    simp only [techUnlocks, UnlocksItem, heff, List.any_eq_true]
    constructor
    · rintro ⟨e, he, hp⟩
      exact ⟨e, he, (techUnlocks_effect_iff st x e).mp hp⟩
    · rintro ⟨e, he, hp⟩
      exact ⟨e, he, (techUnlocks_effect_iff st x e).mpr hp⟩
  | wrapped xs =>
    simp only [techUnlocks, UnlocksItem, heff, List.any_eq_true]
    constructor
    · rintro ⟨e, he, hp⟩
      exact ⟨e, he, (techUnlocks_effect_iff st x e).mp hp⟩
    · rintro ⟨e, he, hp⟩
      exact ⟨e, he, (techUnlocks_effect_iff st x e).mpr hp⟩
  | objOther => simp [techUnlocks, UnlocksItem, heff, extractItems]

/-- C5: `getTechnologyThatUnlocks x` returns absent when the dataset has
no technology bucket (or nothing qualifies), and otherwise the FIRST
technology in declaration order that has an `unlock-recipe` effect whose
target recipe, resolved through the recipe index, has a result named
`x`: the returned technology qualifies and every technology declared
before it does not. -/
theorem get_technology_that_unlocks_spec (st : ProcState) (x : String) :
    (st.data.bind Dataset.technology = none →
       getTechnologyThatUnlocks st x = none) ∧
    (∀ techs, st.data.bind Dataset.technology = some techs →
       ((getTechnologyThatUnlocks st x = none ↔
           ∀ t ∈ techs, ¬ UnlocksItem st x t) ∧
        (∀ t, getTechnologyThatUnlocks st x = some t →
           UnlocksItem st x t ∧
             ∃ pre post, techs = pre ++ t :: post ∧
               ∀ u ∈ pre, ¬ UnlocksItem st x u))) := by
  cases hd : st.data with
  | none =>
    refine ⟨fun _ => by simp [getTechnologyThatUnlocks, hd], ?_⟩
    intro techs htechs
    simp at htechs
  | some d =>
    cases ht : d.technology with
    | none =>
      refine ⟨fun _ => by simp [getTechnologyThatUnlocks, hd, ht], ?_⟩
      intro techs htechs
      simp [ht] at htechs
    | some techs0 =>
      constructor
      · intro hnone
        simp [ht] at hnone
      · intro techs htechs
        simp only [Option.some_bind, ht, Option.some.injEq] at htechs
        subst htechs
        have hunfold : getTechnologyThatUnlocks st x =
            techs0.find? (techUnlocks st x) := by
          simp [getTechnologyThatUnlocks, hd, ht]
        constructor
        · rw [hunfold]
          constructor
          · intro hnone t htmem hu
            have := List.find?_eq_none.mp hnone t htmem
            exact this ((techUnlocks_iff st x t).mpr hu)
          · intro hall
            refine List.find?_eq_none.mpr ?_
            intro t htmem hu
            exact hall t htmem ((techUnlocks_iff st x t).mp hu)
        · intro t hsome
          rw [hunfold] at hsome
          obtain ⟨hpt, pre, post, hsplit, hpre⟩ :=
            find?_eq_some_split (techUnlocks st x) techs0 t hsome
          refine ⟨(techUnlocks_iff st x t).mp hpt, pre, post, hsplit, ?_⟩
          intro u hu hcontra
          have hfalse := hpre u hu
          rw [(techUnlocks_iff st x u).mpr hcontra] at hfalse
          exact Bool.noConfusion hfalse

/-- A concrete recipe for the C5 witness index. -/
def recC5 : Recipe :=
  { name := "r1", cleaned_name := none, category := none, displayName := "r1",
    id := "r1", ingredients := [],
    results := [{ name := "x", amount := none }], craftingEntity := none }

/-- A concrete technology unlocking `recC5` for the C5 witness. -/
def techC5 : RawTech :=
  { name := "tech1",
    effects :=
      JsArrayField.arr [{ type := "unlock-recipe", recipe := some "r1" }] }

/-- C5 witness dataset: a single technology bucket. -/
def dC5 : Dataset := { technology := some [techC5] }

/-- C5 witness index state. -/
def stC5 : ProcState :=
  { initState with
      data := some dC5
      recipeLookup := fun k => if k = "r1" then some recC5 else none }

/-- Witness for C5 at a concrete index: the returned technology unlocks
the item and splits the declaration list with nothing qualifying before
it. -/
theorem get_technology_that_unlocks_spec_witness :
    UnlocksItem stC5 "x" techC5 ∧
      ∃ pre post, [techC5] = pre ++ techC5 :: post ∧
        ∀ u ∈ pre, ¬ UnlocksItem stC5 "x" u :=
  ((get_technology_that_unlocks_spec stC5 "x").2 [techC5] rfl).2 techC5 rfl

end Ultracube
